import Mathlib

/-!
# OneHitter — shallow embedding and verification

Shallow embedding of the OneHitter OTP library core (TypeScript) in Lean 4:

* `src/db/shared.ts` — `computeOtpHash` (peppered hashing with the
  production-mode guard), status vocabulary, record shape;
* `src/db/sqlite-functions.ts` — the embedded (SQLite) adapter:
  `otpCreate` and `otpValidateWithStatus` (select-newest / delete-by-id /
  affected-rows re-check / TTL classification);
* `src/onehitter.ts` — the engine's `validateStatus` orchestration and
  `make` (OTP generation policy);
* `src/rate-limiter.ts` — `InMemoryRateLimiter` (windowed failure
  counting with cooldown).

Storage is modelled as the list of rows of the `otp` table; timestamps are
integer epoch milliseconds; JavaScript's optional/absent values are
`Option`; code that can throw returns `Except String`.
-/

namespace OneHitter

/-- `ValidateStatus` from `src/db/shared.ts`: `'ok' | 'not_found' | 'expired'`. -/
inductive ValidateStatus
  | ok
  | not_found
  | expired
deriving DecidableEq, Repr

/-- A row of the SQLite `otp` table
(`id INTEGER PRIMARY KEY AUTOINCREMENT, contactId TEXT, otpHash TEXT, createdAt INTEGER`). -/
structure OtpRow where
  id : Nat
  contactId : String
  otpHash : String
  createdAt : Int
deriving DecidableEq, Repr

/-- The contents of the `otp` table. -/
abbrev OtpStore := List OtpRow

/-- The SQL `WHERE contactId = ? AND otpHash = ?` predicate. -/
def rowMatches (cid hash : String) (r : OtpRow) : Bool :=
  r.contactId == cid && r.otpHash == hash

/-- `SELECT id, createdAt FROM otp WHERE contactId = ? AND otpHash = ?
ORDER BY id DESC LIMIT 1` (`sqlite-functions.ts` line 78): the matching row
with the greatest `id`, if any. -/
def selectNewest (store : OtpStore) (cid hash : String) : Option OtpRow :=
  (store.filter (rowMatches cid hash)).argmax OtpRow.id

/-- `DELETE FROM otp WHERE id = ?` (`sqlite-functions.ts` line 86): the
remaining rows together with sqlite's `this.changes` (number of rows
removed). -/
def deleteById (store : OtpStore) (i : Nat) : OtpStore × Nat :=
  let remaining := store.filter (fun r => !(r.id == i))
  (remaining, store.length - remaining.length)

/-- TTL resolution (`sqlite-functions.ts` lines 91–92):
`Number.isFinite(Number(process.env.OTP_EXPIRY))` wins over the
`ttlSeconds` argument. `envTtl = some e` models `OTP_EXPIRY` parsing to the
finite number `e`; `none` models it being absent or non-numeric. -/
def effectiveTtl (envTtl ttlSeconds : Option Int) : Option Int :=
  match envTtl with
  | some e => some e
  | none => ttlSeconds

/-- Expiry classification (`sqlite-functions.ts` lines 93–97): when a
positive TTL is in effect and `now - createdAt > ttl * 1000` the status is
`expired`, otherwise `ok`. -/
def classify (ttl? : Option Int) (nowMs createdAtMs : Int) : ValidateStatus :=
  match ttl? with
  | some ttl =>
      if ttl > 0 then
        (if nowMs - createdAtMs > ttl * 1000 then .expired else .ok)
      else .ok
  | none => .ok

/-- The delete-and-re-check phase of `otpValidateWithStatus`
(`sqlite-functions.ts` lines 86–97): delete the selected row by id; if the
delete affected a number of rows other than 1 (a concurrent caller won the
race), resolve `not_found`; otherwise classify by TTL. -/
def deletePhase (ttl? : Option Int) (nowMs : Int) (store : OtpStore) (row : OtpRow) :
    ValidateStatus × OtpStore :=
  let res := deleteById store row.id
  (if res.2 ≠ 1 then .not_found else classify ttl? nowMs row.createdAt, res.1)

/-- The storage core of `otpValidateWithStatus`
(`sqlite-functions.ts` lines 74–101), after the contact id and code hash
have been computed: select the newest matching row (resolving `not_found`
when there is none), then run the delete phase. Returns the status together
with the table contents afterwards. -/
def otpConsume (envTtl : Option Int) (store : OtpStore) (cid hash : String)
    (nowMs : Int) (ttlSeconds : Option Int) : ValidateStatus × OtpStore :=
  match selectNewest store cid hash with
  | none => (.not_found, store)
  | some row => deletePhase (effectiveTtl envTtl ttlSeconds) nowMs store row

/-! ## Hashing (`src/db/shared.ts`) -/

/-- The environment variables `computeOtpHash` consults; `none` models an
unset variable. -/
structure HashEnv where
  nodeEnv : Option String
  otpPepper : Option String
  allowInsecureHash : Option String
deriving DecidableEq, Repr

/-- The message of the `Error` thrown by `computeOtpHash`
(`shared.ts` line 29). -/
def securityRequirementMsg : String :=
  "Security requirement: OTP_PEPPER must be set in production to HMAC-protect OTP hashes (override with ONEHITTER_ALLOW_INSECURE_HASH=true for non-prod-like runs)"

/-- `computeOtpHash` from `src/db/shared.ts` lines 22–41. The guard and
message construction are embedded exactly; the two cryptographic digests
(HMAC-SHA256 with the pepper as key, plain SHA-256) come from Node's
`crypto` module and are modelled as symbolic digest strings that record the
algorithm, key and message. A JS string set to the empty string is falsy,
so `OTP_PEPPER || ''` followed by `!pepper` treats unset and empty alike. -/
def computeOtpHash (env : HashEnv) (contact otp : String)
    (salt : Option String) : Except String String :=
  let pepper := env.otpPepper.getD ""
  let saltv := salt.getD ""
  let allowInsecure := env.allowInsecureHash == some "true"
  if env.nodeEnv == some "production" && pepper == "" && !allowInsecure then
    .error securityRequirementMsg
  else
    let message :=
      if saltv ≠ "" then contact ++ "|" ++ otp ++ "|" ++ saltv
      else contact ++ "|" ++ otp
    if pepper ≠ "" then .ok ("hmac-sha256(" ++ pepper ++ ";" ++ message ++ ")")
    else .ok ("sha256(" ++ message ++ ")")

/-- Modelled from the spec: `computeContactId` is declared in
`src/db/shared.ts` but its body is not in the provided sources (only its
callers in `sqlite-functions.ts` are); per the spec, the contact identifier
is "derived via a peppered hash" of the contact alone, so it is modelled
as a symbolic keyed digest of the contact. The claims settled here treat it
as an opaque deterministic string. -/
def computeContactId (env : HashEnv) (contact : String) : String :=
  "contact-digest(" ++ env.otpPepper.getD "" ++ ";" ++ contact ++ ")"

/-! ## Adapter entry points (`src/db/sqlite-functions.ts`) -/

/-- The caller-supplied record shape (`OtpDoc` in `shared.ts`): `createdAt`
is checked for truthiness in `otpCreate` (`otp.createdAt ? ... : Date.now()`),
so it is modelled as optional. -/
structure OtpDoc where
  contact : String
  otp : String
  createdAt : Option Int
deriving DecidableEq, Repr

/-- The result shape `otpCreate` resolves with
(`sqlite-functions.ts` line 59). -/
structure InsertResult where
  acknowledged : Bool
  insertedId : Nat
deriving DecidableEq, Repr

/-- `otpCreate` from `sqlite-functions.ts` lines 46–63: compute the code
hash (which may throw) and the contact id, then insert one row. `nextId`
models the AUTOINCREMENT id sqlite assigns; `nowMs` models `Date.now()`.
An error from `computeOtpHash` propagates before any row is written. -/
def otpCreate (env : HashEnv) (store : OtpStore) (nextId : Nat)
    (otp : OtpDoc) (nowMs : Int) : Except String (InsertResult × OtpStore) := do
  let createdAt := otp.createdAt.getD nowMs
  let otpHash ← computeOtpHash env otp.contact otp.otp none
  let contactId := computeContactId env otp.contact
  pure (⟨true, nextId⟩, store ++ [⟨nextId, contactId, otpHash, createdAt⟩])

/-- `otpValidateWithStatus` from `sqlite-functions.ts` lines 65–102: compute
the code hash (which may throw) and the contact id, then run the
select/delete/classify core on the table. An error from `computeOtpHash`
propagates before any row is read or deleted. -/
def otpValidateWithStatus (env : HashEnv) (envTtl : Option Int)
    (store : OtpStore) (otp : OtpDoc) (nowMs : Int)
    (ttlSeconds : Option Int) : Except String (ValidateStatus × OtpStore) := do
  let otpHash ← computeOtpHash env otp.contact otp.otp none
  let contactId := computeContactId env otp.contact
  pure (otpConsume envTtl store contactId otpHash nowMs ttlSeconds)

/-! ## Code generation (`src/onehitter.ts` `make`, with the external
`otp-generator` library modelled from the spec) -/

/-- The generation configuration `make` reads (`src/config.ts` values).
`otpLength = some n` models `OTP_LENGTH` being the finite number `n`;
`none` models a non-finite value, which `Number.isFinite` rejects. -/
structure GenConfig where
  otpLength : Option Int
  upper : Bool
  lower : Bool
  digits : Bool
  special : Bool
deriving DecidableEq, Repr

/-- The digit character class. -/
def digitChars : List Char := "0123456789".toList

/-- The upper-case letter class. -/
def upperChars : List Char := "ABCDEFGHIJKLMNOPQRSTUVWXYZ".toList

/-- The lower-case letter class. -/
def lowerChars : List Char := "abcdefghijklmnopqrstuvwxyz".toList

/-- The special character class. -/
def specialChars : List Char := "#!&@".toList

/-- The union of the enabled character classes. -/
def charset (upper lower digits special : Bool) : List Char :=
  (if digits then digitChars else []) ++
  (if lower then lowerChars else []) ++
  (if upper then upperChars else []) ++
  (if special then specialChars else [])

/-- Modelled from the spec: the external `otp-generator` library's
`generate(length, options)` (not part of this repository) — "a
uniformly-sampled string of exactly `length` characters drawn only from
the union of enabled classes". The entropy source is an explicit `rand`
argument; each output character is drawn from the enabled-class union by
indexing with `rand i` modulo the union's size. -/
def otpGeneratorGenerate (len : Nat) (upper lower digits special : Bool)
    (rand : Nat → Nat) : String :=
  let cs := charset upper lower digits special
  String.mk ((List.range len).map (fun i => cs.getD (rand i % cs.length) '0'))

/-- `make` from `src/onehitter.ts` lines 223–235: resolve the length
(fall back to 6 unless `OTP_LENGTH` is a positive finite number, cap at
64), and if no character class is enabled, enable digits; then delegate to
the generator. -/
def make (cfg : GenConfig) (rand : Nat → Nat) : String :=
  let rawLength : Int :=
    match cfg.otpLength with
    | some n => if n > 0 then n else 6
    | none => 6
  let length : Int := min rawLength 64
  let hasAny := cfg.upper || cfg.lower || cfg.digits || cfg.special
  let digits := if hasAny then cfg.digits else true
  otpGeneratorGenerate length.toNat cfg.upper cfg.lower digits cfg.special rand

/-! ## Rate limiter (`src/rate-limiter.ts`) -/

/-- A per-contact bucket of the in-memory limiter:
`{ times: number[]; cooldownUntil?: number }`. -/
structure Bucket where
  times : List Int
  cooldownUntil : Option Int
deriving DecidableEq, Repr

/-- The bucket `bucket(contact)` initializes for a contact with no entry
in the map (`rate-limiter.ts` line 75). -/
def emptyBucket : Bucket := ⟨[], none⟩

/-- The resolved fields of an `InMemoryRateLimiter`. -/
structure LimiterConfig where
  windowMs : Int
  max : Int
  cooldownMs : Int
deriving DecidableEq, Repr

/-- The constructor's options object (`InMemoryLimiterOptions`): each field
optional. -/
structure InMemoryLimiterOptions where
  windowMs : Option Int
  max : Option Int
  cooldownMs : Option Int
deriving DecidableEq, Repr

/-- The `InMemoryRateLimiter` constructor (`rate-limiter.ts` lines 49–53):
`opts?.field ?? default` — the nullish-coalescing operator substitutes the
default only for an absent field, so explicitly supplied values (including
zero and negatives) are used verbatim. -/
def mkInMemoryRateLimiter (opts : Option InMemoryLimiterOptions) : LimiterConfig :=
  { windowMs := (opts.bind (·.windowMs)).getD (5 * 60000)
    max := (opts.bind (·.max)).getD 5
    cooldownMs := (opts.bind (·.cooldownMs)).getD 60000 }

/-- JavaScript truthiness of the optional number `b.cooldownUntil`:
`undefined` and `0` are falsy. -/
def jsTruthy : Option Int → Bool
  | none => false
  | some n => n ≠ 0

/-- `prune` (`rate-limiter.ts` lines 100–104): keep only failure
timestamps `t` with `now - t <= windowMs`. -/
def prune (cfg : LimiterConfig) (now : Int) (b : Bucket) : Bucket :=
  { b with times := b.times.filter (fun t => now - t ≤ cfg.windowMs) }

/-- `beforeValidate` (`rate-limiter.ts` lines 128–138) for one contact's
bucket: prune; if `b.cooldownUntil` is truthy and in the future, deny; if
truthy and elapsed, clear cooldown and history and fall through to the
count check (now over the emptied history); otherwise allow iff the pruned
failure count is below `max`. Returns the decision with the mutated
bucket. -/
def beforeValidate (cfg : LimiterConfig) (now : Int) (b0 : Bucket) :
    Bool × Bucket :=
  let b := prune cfg now b0
  if jsTruthy b.cooldownUntil then
    if b.cooldownUntil.getD 0 > now then (false, b)
    else
      let b1 : Bucket := ⟨[], none⟩
      (((b1.times.length : Int) < cfg.max), b1)
  else (((b.times.length : Int) < cfg.max), b)

/-- `onFailure` (`rate-limiter.ts` lines 161–168): prune, append `now`,
and if the count has reached `max`, set `cooldownUntil = now + cooldownMs`. -/
def onFailure (cfg : LimiterConfig) (now : Int) (b0 : Bucket) : Bucket :=
  let b := prune cfg now b0
  let times := b.times ++ [now]
  if (times.length : Int) ≥ cfg.max then ⟨times, some (now + cfg.cooldownMs)⟩
  else ⟨times, b.cooldownUntil⟩

/-- `onSuccess` (`rate-limiter.ts` lines 187–189): delete the contact's
entry from the map; the next `bucket(contact)` access re-initializes it to
the empty bucket. -/
def onSuccess (_b : Bucket) : Bucket := emptyBucket

/-! ## Engine orchestration (`src/onehitter.ts` `validateStatus`) -/

/-- The `RateLimiter` interface (`rate-limiter.ts` lines 1–8), as a bundle
of pure transition functions over an abstract limiter state `σ`: each hook
receives the contact and the current state and returns its result together
with the successor state. -/
structure RateLimiterIface (σ : Type) where
  beforeValidate : σ → String → Bool × σ
  onSuccess : σ → String → σ
  onFailure : σ → String → σ

/-- The result vocabulary of the engine's `validateStatus`:
`ValidateStatus | 'blocked'`. -/
inductive EngineStatus
  | ok
  | not_found
  | expired
  | blocked
deriving DecidableEq, Repr

/-- The coercion of an adapter status into the engine's result vocabulary
(the adapter result is returned as-is). -/
def EngineStatus.ofValidateStatus : ValidateStatus → EngineStatus
  | .ok => .ok
  | .not_found => .not_found
  | .expired => .expired

/-- `OneHitter.validateStatus` from `src/onehitter.ts` lines 191–202, over
an arbitrary limiter and an arbitrary storage adapter (the adapter maps the
store to a status and the store afterwards): ask `limiter.beforeValidate`;
if denied, return `'blocked'` (keeping whatever state mutation
`beforeValidate` made); otherwise call the adapter once, report to
`onSuccess` exactly when the status is `'ok'` and to `onFailure` otherwise,
and return the adapter's status verbatim. -/
def engineValidateStatus {σ : Type} (L : RateLimiterIface σ)
    (adapter : OtpStore → ValidateStatus × OtpStore) (contact : String)
    (ls : σ) (store : OtpStore) : EngineStatus × σ × OtpStore :=
  let r := L.beforeValidate ls contact
  if !r.1 then (.blocked, r.2, store)
  else
    let a := adapter store
    let ls2 := if a.1 = .ok then L.onSuccess r.2 contact else L.onFailure r.2 contact
    (.ofValidateStatus a.1, ls2, a.2)

/-! ## Concurrency model for the embedded adapter

`otpValidateWithStatus` issues two sqlite statements per call — the
`SELECT ... ORDER BY id DESC LIMIT 1` and the `DELETE ... WHERE id = ?` —
and sqlite serializes statements on the single shared connection
(`getDb()`), so an execution of `n` concurrent calls is an arbitrary
interleaving of these atomic statements. Each call is in one of three
phases: not yet selected, selected a row (holding it in its callback
closure), or resolved with a status. -/

/-- The local phase of one concurrent `otpValidateWithStatus` call. -/
inductive CallPhase
  | start
  | selected (row : OtpRow)
  | done (st : ValidateStatus)
deriving DecidableEq, Repr

/-- A global state of `n` concurrent calls: the table contents plus each
call's phase. -/
structure ConcState (n : Nat) where
  store : OtpStore
  calls : Fin n → CallPhase

/-- One atomic sqlite statement executed on behalf of call `i`, all calls
carrying the same `(contactId, otpHash)` pair; `now i` and `tta i` are call
`i`'s clock reading and `ttlSeconds` argument.

* `selectNone`: call `i` runs its SELECT, no row matches — it resolves
  `not_found` (`sqlite-functions.ts` line 82);
* `selectSome`: call `i` runs its SELECT and obtains the newest matching
  row (line 78);
* `deleteRow`: call `i` runs its DELETE on the row it selected and resolves
  by the affected-rows re-check and TTL classification (lines 86–97). -/
inductive ConcStep {n : Nat} (cid hash : String) (envTtl : Option Int)
    (now : Fin n → Int) (tta : Fin n → Option Int) :
    ConcState n → ConcState n → Prop
  | selectNone (s : ConcState n) (i : Fin n) :
      s.calls i = .start →
      selectNewest s.store cid hash = none →
      ConcStep cid hash envTtl now tta s
        ⟨s.store, Function.update s.calls i (.done .not_found)⟩
  | selectSome (s : ConcState n) (i : Fin n) (row : OtpRow) :
      s.calls i = .start →
      selectNewest s.store cid hash = some row →
      ConcStep cid hash envTtl now tta s
        ⟨s.store, Function.update s.calls i (.selected row)⟩
  | deleteRow (s : ConcState n) (i : Fin n) (row : OtpRow) :
      s.calls i = .selected row →
      ConcStep cid hash envTtl now tta s
        ⟨(deletePhase (effectiveTtl envTtl (tta i)) (now i) s.store row).2,
         Function.update s.calls i
           (.done (deletePhase (effectiveTtl envTtl (tta i)) (now i) s.store row).1)⟩

/-- Reachability under interleaved execution. -/
abbrev ConcReach {n : Nat} (cid hash : String) (envTtl : Option Int)
    (now : Fin n → Int) (tta : Fin n → Option Int) :
    ConcState n → ConcState n → Prop :=
  Relation.ReflTransGen (ConcStep cid hash envTtl now tta)

/-- The initial state: a single stored record `r`, every call pending. -/
def concInit (n : Nat) (r : OtpRow) : ConcState n := ⟨[r], fun _ => .start⟩

/-- A call that has observed `ok` or `expired`. -/
def isWin : CallPhase → Bool
  | .done .ok => true
  | .done .expired => true
  | _ => false

/-- The number of calls that have observed `ok` or `expired`. -/
def winCount {n : Nat} (s : ConcState n) : Nat :=
  (Finset.univ.filter (fun i => isWin (s.calls i) = true)).card

/-! ## Helper lemmas -/

theorem selectNewest_nil (cid hash : String) : selectNewest [] cid hash = none := rfl

theorem selectNewest_singleton {cid hash : String} {r : OtpRow}
    (h : rowMatches cid hash r = true) : selectNewest [r] cid hash = some r := by
  simp [selectNewest, List.filter, h, List.argmax_singleton]

theorem selectNewest_of_no_match {store : OtpStore} {cid hash : String}
    (h : store.filter (rowMatches cid hash) = []) :
    selectNewest store cid hash = none := by
  simp [selectNewest, h, List.argmax_nil]

theorem classify_ne_not_found (ttl? : Option Int) (nowMs createdAtMs : Int) :
    classify ttl? nowMs createdAtMs ≠ .not_found := by
  cases ttl? with
  | none => simp [classify]
  | some ttl =>
      simp only [classify]
      split
      · split <;> simp
      · simp

theorem deletePhase_nil (ttl? : Option Int) (nowMs : Int) (row : OtpRow) :
    deletePhase ttl? nowMs [] row = (.not_found, []) := by
  simp [deletePhase, deleteById]

theorem deletePhase_singleton (ttl? : Option Int) (nowMs : Int) (r : OtpRow) :
    deletePhase ttl? nowMs [r] r = (classify ttl? nowMs r.createdAt, []) := by
  simp [deletePhase, deleteById]

theorem otpConsume_of_no_match {store : OtpStore} {cid hash : String}
    (envTtl : Option Int) (nowMs : Int) (ttlSeconds : Option Int)
    (h : store.filter (rowMatches cid hash) = []) :
    otpConsume envTtl store cid hash nowMs ttlSeconds = (.not_found, store) := by
  simp [otpConsume, selectNewest_of_no_match h]

theorem classify_eq_ok_or_expired (ttl? : Option Int) (nowMs createdAtMs : Int) :
    classify ttl? nowMs createdAtMs = .ok ∨ classify ttl? nowMs createdAtMs = .expired := by
  cases h : classify ttl? nowMs createdAtMs with
  | ok => exact Or.inl rfl
  | expired => exact Or.inr rfl
  | not_found => exact absurd h (classify_ne_not_found _ _ _)

theorem isWin_done_classify (ttl? : Option Int) (nowMs createdAtMs : Int) :
    isWin (.done (classify ttl? nowMs createdAtMs)) = true := by
  rcases classify_eq_ok_or_expired ttl? nowMs createdAtMs with h | h <;> rw [h] <;> rfl

theorem winCount_congr {n : Nat} {store store' : OtpStore}
    {f g : Fin n → CallPhase} (h : ∀ i, isWin (f i) = isWin (g i)) :
    winCount ⟨store, f⟩ = winCount ⟨store', g⟩ := by
  unfold winCount
  congr 1
  apply Finset.filter_congr
  intro i _
  simp only [h i]

theorem winCount_update_win {n : Nat} {store : OtpStore} {f : Fin n → CallPhase}
    {i : Fin n} {p : CallPhase}
    (hall : ∀ j, isWin (f j) = false) (hp : isWin p = true) :
    winCount ⟨store, Function.update f i p⟩ = 1 := by
  unfold winCount
  have hset : (Finset.univ.filter
      (fun j => isWin (Function.update f i p j) = true)) = {i} := by
    ext j
    simp only [Finset.mem_filter, Finset.mem_univ, true_and, Finset.mem_singleton,
      Function.update_apply]
    constructor
    · intro hj
      by_contra hne
      rw [if_neg hne, hall j] at hj
      exact Bool.false_ne_true hj
    · intro hj
      rw [if_pos hj]
      exact hp
  rw [hset, Finset.card_singleton]

/-- The race invariant for a single stored record `r`: either the record is
still present and no call has resolved yet (pending calls have selected
exactly `r`), or the record is gone, exactly one call has observed
`ok`/`expired`, and any still-pending selected row is `r`. -/
def ConcInv {n : Nat} (r : OtpRow) (s : ConcState n) : Prop :=
  (s.store = [r] ∧ ∀ i, s.calls i = .start ∨ s.calls i = .selected r)
  ∨ (s.store = [] ∧ winCount s = 1 ∧ ∀ i row, s.calls i = .selected row → row = r)

theorem concInv_step {n : Nat} {cid hash : String} {envTtl : Option Int}
    {now : Fin n → Int} {tta : Fin n → Option Int} {r : OtpRow}
    (hr : rowMatches cid hash r = true)
    {s s' : ConcState n} (hstep : ConcStep cid hash envTtl now tta s s')
    (hinv : ConcInv r s) : ConcInv r s' := by
  cases hstep with
  | selectNone i hc hsel =>
      rcases hinv with ⟨hst, hph⟩ | ⟨hst, hwc, hph⟩
      · rw [hst, selectNewest_singleton hr] at hsel
        exact absurd hsel (by simp)
      · right
        refine ⟨hst, ?_, ?_⟩
        · rw [← hwc]
          apply winCount_congr
          intro j
          rw [Function.update_apply]
          split
          · next hji => subst hji; rw [hc]; rfl
          · rfl
        · intro j row hj
          simp only [Function.update_apply] at hj
          split at hj
          · exact absurd hj (by simp)
          · exact hph j row hj
  | selectSome i row hc hsel =>
      rcases hinv with ⟨hst, hph⟩ | ⟨hst, hwc, hph⟩
      · left
        rw [hst, selectNewest_singleton hr] at hsel
        injection hsel with hrow
        refine ⟨hst, ?_⟩
        intro j
        simp only [Function.update_apply]
        split
        · right; rw [hrow]
        · exact hph j
      · rw [hst] at hsel
        exact absurd hsel (by simp [selectNewest_nil])
  | deleteRow i row hc =>
      rcases hinv with ⟨hst, hph⟩ | ⟨hst, hwc, hph⟩
      · have hrow : row = r := by
          rcases hph i with h | h
          · rw [hc] at h; exact absurd h (by simp)
          · rw [hc] at h; injection h
        right
        subst hrow
        rw [hst, deletePhase_singleton]
        refine ⟨rfl, ?_, ?_⟩
        · apply winCount_update_win
          · intro j
            rcases hph j with h | h <;> rw [h] <;> rfl
          · exact isWin_done_classify _ _ _
        · intro j row' hj
          simp only [Function.update_apply] at hj
          split at hj
          · exact absurd hj (by simp)
          · rcases hph j with h | h
            · rw [h] at hj; exact absurd hj (by simp)
            · rw [h] at hj; injection hj with h'; exact h'.symm
      · have hrow : row = r := hph i row hc
        right
        subst hrow
        rw [hst, deletePhase_nil]
        refine ⟨rfl, ?_, ?_⟩
        · rw [← hwc]
          apply winCount_congr
          intro j
          rw [Function.update_apply]
          split
          · next hji => subst hji; rw [hc]; rfl
          · rfl
        · intro j row' hj
          simp only [Function.update_apply] at hj
          split at hj
          · exact absurd hj (by simp)
          · exact hph j row' hj

theorem concInv_reach {n : Nat} {cid hash : String} {envTtl : Option Int}
    {now : Fin n → Int} {tta : Fin n → Option Int} {r : OtpRow}
    (hr : rowMatches cid hash r = true) {s : ConcState n}
    (h : ConcReach cid hash envTtl now tta (concInit n r) s) :
    ConcInv r s := by
  induction h with
  | refl => exact Or.inl ⟨rfl, fun _ => Or.inl rfl⟩
  | tail _hsteps hstep ih => exact concInv_step hr hstep ih

/-- C1: for a single stored OTP record, among any number (at least one) of
concurrent `validateStatus` calls carrying the correct `(contact, code)` —
i.e. a `(contactId, otpHash)` pair matching the record — every interleaved
execution in which all calls have resolved has exactly one call observing
`ok` or `expired`, and every call that is not that winner observes
`not_found`. The delete-affected-rows re-check after the delete-by-id
(`sqlite-functions.ts` lines 86–89) is what turns racing losers into
`not_found`. -/
theorem concurrent_validate_exactly_one_winner {n : Nat} {cid hash : String}
    {envTtl : Option Int} {now : Fin n → Int} {tta : Fin n → Option Int}
    {r : OtpRow} {s : ConcState n}
    (hn : 0 < n)
    (hr : rowMatches cid hash r = true)
    (hreach : ConcReach cid hash envTtl now tta (concInit n r) s)
    (hdone : ∀ i, ∃ st, s.calls i = .done st) :
    winCount s = 1 ∧
      ∀ i, isWin (s.calls i) = false → s.calls i = .done .not_found := by
  rcases concInv_reach hr hreach with ⟨_hst, hph⟩ | ⟨_hst, hwc, _hph⟩
  · obtain ⟨st, hi⟩ := hdone ⟨0, hn⟩
    rcases hph ⟨0, hn⟩ with h | h <;> rw [hi] at h <;> exact absurd h (by simp)
  · refine ⟨hwc, ?_⟩
    intro i hwin
    obtain ⟨st, hi⟩ := hdone i
    rw [hi] at hwin ⊢
    cases st with
    | ok => exact absurd hwin (by simp [isWin])
    | expired => exact absurd hwin (by simp [isWin])
    | not_found => rfl

/-- A concrete record for exercising the concurrency theorem. -/
def c1Row : OtpRow := ⟨1, "cid-digest", "hash-digest", 0⟩

/-- Call states of a concrete two-call interleaving: call 0 selects the
record. -/
def c1Calls1 : Fin 2 → CallPhase :=
  Function.update (fun _ => CallPhase.start) 0 (CallPhase.selected c1Row)

/-- ... call 0 then deletes it and resolves `ok`. -/
def c1Calls2 : Fin 2 → CallPhase :=
  Function.update c1Calls1 0 (CallPhase.done ValidateStatus.ok)

/-- ... call 1 then selects nothing and resolves `not_found`. -/
def c1Calls3 : Fin 2 → CallPhase :=
  Function.update c1Calls2 1 (CallPhase.done ValidateStatus.not_found)

/-- The final state of the concrete interleaving. -/
def c1Final : ConcState 2 := ⟨[], c1Calls3⟩

theorem concurrent_validate_exactly_one_winner_witness :
    winCount c1Final = 1 ∧
      ∀ i, isWin (c1Final.calls i) = false →
        c1Final.calls i = .done .not_found := by
  have h1 : ConcStep "cid-digest" "hash-digest" none (fun _ : Fin 2 => (0 : Int))
      (fun _ => none) (concInit 2 c1Row) ⟨[c1Row], c1Calls1⟩ :=
    ConcStep.selectSome (concInit 2 c1Row) 0 c1Row rfl (by decide)
  have h2 : ConcStep "cid-digest" "hash-digest" none (fun _ : Fin 2 => (0 : Int))
      (fun _ => none) ⟨[c1Row], c1Calls1⟩ ⟨[], c1Calls2⟩ :=
    ConcStep.deleteRow ⟨[c1Row], c1Calls1⟩ 0 c1Row (by decide)
  have h3 : ConcStep "cid-digest" "hash-digest" none (fun _ : Fin 2 => (0 : Int))
      (fun _ => none) ⟨[], c1Calls2⟩ c1Final :=
    ConcStep.selectNone ⟨[], c1Calls2⟩ 1 (by decide) rfl
  have hreach : ConcReach "cid-digest" "hash-digest" none (fun _ : Fin 2 => (0 : Int))
      (fun _ => none) (concInit 2 c1Row) c1Final :=
    Relation.ReflTransGen.head h1 (Relation.ReflTransGen.head h2
      (Relation.ReflTransGen.head h3 Relation.ReflTransGen.refl))
  refine concurrent_validate_exactly_one_winner (by decide) (by decide) hreach ?_
  intro i
  fin_cases i
  · exact ⟨.ok, by decide⟩
  · exact ⟨.not_found, by decide⟩

/-! ## Sequential facts about the consume operation -/

theorem selectNewest_of_filter_singleton {store : OtpStore} {cid hash : String}
    {r : OtpRow} (h : store.filter (rowMatches cid hash) = [r]) :
    selectNewest store cid hash = some r := by
  simp [selectNewest, h, List.argmax_singleton]

theorem otpConsume_of_select {envTtl : Option Int} {store : OtpStore}
    {cid hash : String} {nowMs : Int} {ttlSeconds : Option Int} {r : OtpRow}
    (hsel : selectNewest store cid hash = some r) :
    otpConsume envTtl store cid hash nowMs ttlSeconds =
      (if (deleteById store r.id).2 ≠ 1 then .not_found
       else classify (effectiveTtl envTtl ttlSeconds) nowMs r.createdAt,
       (deleteById store r.id).1) := by
  simp [otpConsume, hsel, deletePhase]

theorem deleteById_fst (store : OtpStore) (i : Nat) :
    (deleteById store i).1 = store.filter (fun r => !(r.id == i)) := rfl

theorem deleteById_changes (store : OtpStore) (i : Nat) :
    (deleteById store i).2 = (store.map OtpRow.id).count i := by
  show store.length - (store.filter (fun r => !(r.id == i))).length
      = (store.map OtpRow.id).count i
  have hsplit := @List.length_eq_length_filter_add OtpRow store (fun r => r.id == i)
  have hcount : ((store.map OtpRow.id).count i)
      = (store.filter (fun r => r.id == i)).length := by
    rw [List.count, List.countP_map, List.countP_eq_length_filter]
    rfl
  rw [hcount]
  omega

theorem deleteById_changes_one {store : OtpStore} {r : OtpRow}
    (hnd : (store.map OtpRow.id).Nodup) (hr : r ∈ store) :
    (deleteById store r.id).2 = 1 := by
  rw [deleteById_changes]
  exact List.count_eq_one_of_mem hnd (List.mem_map_of_mem _ hr)

theorem deleteById_changes_zero {store : OtpStore} {i : Nat}
    (h : i ∉ store.map OtpRow.id) : (deleteById store i).2 = 0 := by
  rw [deleteById_changes]
  exact List.count_eq_zero.mpr h

/-- C2: in the single-record scenario — the table holds exactly one record
matching the attempt's `(contactId, otpHash)` — once a `validateStatus` call
has returned `ok` (consuming the record, leaving table `store'`), every
subsequent call with the same attempt, at any later clock reading and under
any TTL configuration, returns `not_found` and leaves the table exactly as
it is (no further record is deleted); the embedded consume operation is a
total function, so repeated validation never throws. -/
theorem validate_single_use_idempotent {envTtl : Option Int}
    {store store' : OtpStore} {cid hash : String} {nowMs : Int}
    {ttlSeconds : Option Int} {r : OtpRow} {st : ValidateStatus}
    (hmatch : store.filter (rowMatches cid hash) = [r])
    (hrun : otpConsume envTtl store cid hash nowMs ttlSeconds = (st, store'))
    (_hok : st = .ok) :
    ∀ (envTtl' : Option Int) (nowMs' : Int) (ttlSeconds' : Option Int),
      otpConsume envTtl' store' cid hash nowMs' ttlSeconds' =
        (.not_found, store') := by
  intro envTtl' nowMs' ttlSeconds'
  have hsel := selectNewest_of_filter_singleton hmatch
  have hstore' : store' = store.filter (fun x => !(x.id == r.id)) := by
    have h2 := congrArg Prod.snd hrun
    rw [otpConsume_of_select hsel] at h2
    dsimp only at h2
    rw [← h2, deleteById_fst]
  have hempty : store'.filter (rowMatches cid hash) = [] := by
    rw [hstore']
    rw [List.filter_eq_nil_iff]
    intro a ha
    rcases List.mem_filter.mp ha with ⟨hamem, haid⟩
    intro hmatcha
    have har : a ∈ store.filter (rowMatches cid hash) :=
      List.mem_filter.mpr ⟨hamem, hmatcha⟩
    rw [hmatch] at har
    have : a = r := by simpa using har
    subst this
    simp at haid
  exact otpConsume_of_no_match _ _ _ hempty

theorem validate_single_use_idempotent_witness :
    otpConsume none [] "c" "h" 99 none = (.not_found, []) := by
  have h := @validate_single_use_idempotent none [⟨1, "c", "h", 0⟩] [] "c" "h" 0
    none ⟨1, "c", "h", 0⟩ .ok (by decide) (by decide) rfl
  exact h none 99 none

/-- C3: the embedded consume operation (1) selects, among the records
matching `(contactId, otpHash)`, one that is in the table, matches, and has
the highest insertion-order id, and the table afterwards is exactly the
table minus the rows carrying that id; (2) with unique ids (the sqlite
PRIMARY KEY invariant) it deletes at most one record per call; (3) when no
row matched it returns `not_found` (never `ok` or `expired`) and leaves the
table untouched; (4) when the delete affects zero rows the delete phase
reports `not_found` and the table is unchanged. -/
theorem embedded_consume_contract (envTtl : Option Int) (store : OtpStore)
    (cid hash : String) (nowMs : Int) (ttlSeconds : Option Int) :
    (store.filter (rowMatches cid hash) = [] →
      otpConsume envTtl store cid hash nowMs ttlSeconds = (.not_found, store)) ∧
    (∀ r, selectNewest store cid hash = some r →
      r ∈ store ∧ rowMatches cid hash r = true ∧
        (∀ x ∈ store, rowMatches cid hash x = true → x.id ≤ r.id) ∧
        (otpConsume envTtl store cid hash nowMs ttlSeconds).2 =
          store.filter (fun x => !(x.id == r.id))) ∧
    ((store.map OtpRow.id).Nodup →
      store.length ≤ (otpConsume envTtl store cid hash nowMs ttlSeconds).2.length + 1) ∧
    (∀ r : OtpRow, r.id ∉ store.map OtpRow.id →
      deletePhase (effectiveTtl envTtl ttlSeconds) nowMs store r =
        (.not_found, store)) := by
  refine ⟨fun h => otpConsume_of_no_match _ _ _ h, ?_, ?_, ?_⟩
  · intro r hsel
    have hrf : r ∈ store.filter (rowMatches cid hash) := List.argmax_mem hsel
    rcases List.mem_filter.mp hrf with ⟨hrs, hrm⟩
    refine ⟨hrs, hrm, ?_, ?_⟩
    · intro x hx hxm
      exact List.le_of_mem_argmax (List.mem_filter.mpr ⟨hx, hxm⟩) hsel
    · rw [otpConsume_of_select hsel]
      exact deleteById_fst store r.id
  · intro hnd
    cases hsel : selectNewest store cid hash with
    | none =>
        simp only [otpConsume, hsel]
        exact Nat.le_succ _
    | some r =>
        have hrf : r ∈ store.filter (rowMatches cid hash) := List.argmax_mem hsel
        have hrs : r ∈ store := (List.mem_filter.mp hrf).1
        have hch : (deleteById store r.id).2 = 1 := deleteById_changes_one hnd hrs
        have hdef : (deleteById store r.id).2
            = store.length - (store.filter (fun x => !(x.id == r.id))).length := rfl
        have hle : (store.filter (fun x => !(x.id == r.id))).length ≤ store.length :=
          List.length_filter_le _ _
        rw [otpConsume_of_select hsel]
        dsimp only
        rw [deleteById_fst]
        omega
  · intro r hr
    have hch : (deleteById store r.id).2 = 0 := deleteById_changes_zero hr
    have hall : ∀ x ∈ store, (!(x.id == r.id)) = true := by
      intro x hx
      simp only [Bool.not_eq_true', beq_eq_false_iff_ne]
      intro hxe
      exact hr (hxe ▸ List.mem_map_of_mem OtpRow.id hx)
    have hfix : (deleteById store r.id).1 = store := by
      rw [deleteById_fst]
      exact List.filter_eq_self.mpr hall
    simp [deletePhase, hch, hfix]

theorem embedded_consume_contract_witness :
    otpConsume none [] "c" "h" 0 none = (.not_found, []) ∧
    otpConsume none [⟨1, "c", "h", 0⟩, ⟨2, "c", "h", 5⟩] "c" "h" 0 none
      = (.ok, [⟨1, "c", "h", 0⟩]) ∧
    ([⟨1, "c", "h", 0⟩, ⟨2, "c", "h", 5⟩] : OtpStore).length ≤
      (otpConsume none [⟨1, "c", "h", 0⟩, ⟨2, "c", "h", 5⟩] "c" "h" 0 none).2.length + 1 ∧
    deletePhase none 0 [⟨1, "c", "h", 0⟩] ⟨7, "x", "y", 3⟩
      = (.not_found, [⟨1, "c", "h", 0⟩]) := by
  refine ⟨(embedded_consume_contract none [] "c" "h" 0 none).1 rfl, ?_, ?_, ?_⟩
  · have h := ((embedded_consume_contract none
        [⟨1, "c", "h", 0⟩, ⟨2, "c", "h", 5⟩] "c" "h" 0 none).2.1
        ⟨2, "c", "h", 5⟩ (by decide)).2.2.2
    have hfst : (otpConsume none [⟨1, "c", "h", 0⟩, ⟨2, "c", "h", 5⟩]
        "c" "h" 0 none).1 = .ok := by decide
    exact Prod.ext hfst (h.trans (by decide))
  · exact (embedded_consume_contract none
      [⟨1, "c", "h", 0⟩, ⟨2, "c", "h", 5⟩] "c" "h" 0 none).2.2.1 (by decide)
  · exact (embedded_consume_contract none [⟨1, "c", "h", 0⟩] "c" "h" 0 none).2.2.2
      ⟨7, "x", "y", 3⟩ (by decide)

/-- C4: for a stored record created at `r.createdAt` and consumed with the
correct attempt under an effective TTL of `ttl > 0` seconds (ids unique per
the PRIMARY KEY invariant), validating one second past the TTL yields
`expired` (not `ok`) and validating one second before the TTL yields `ok`;
and whenever no positive finite TTL is in effect, the consume operation
never returns `expired` for any table, attempt or clock. -/
theorem expiry_classification {envTtl ttlArg : Option Int} {store : OtpStore}
    {cid hash : String} {r : OtpRow} {ttl : Int}
    (hmatch : store.filter (rowMatches cid hash) = [r])
    (hnd : (store.map OtpRow.id).Nodup)
    (httl : effectiveTtl envTtl ttlArg = some ttl) (hpos : 0 < ttl) :
    (otpConsume envTtl store cid hash (r.createdAt + (ttl + 1) * 1000) ttlArg).1
      = .expired ∧
    (otpConsume envTtl store cid hash (r.createdAt + (ttl - 1) * 1000) ttlArg).1
      = .ok ∧
    (∀ (envTtl₀ ttlArg₀ : Option Int) (store₀ : OtpStore) (cid₀ hash₀ : String)
        (nowMs : Int),
      (∀ t, effectiveTtl envTtl₀ ttlArg₀ = some t → t ≤ 0) →
      (otpConsume envTtl₀ store₀ cid₀ hash₀ nowMs ttlArg₀).1 ≠ .expired) := by
  have hsel := selectNewest_of_filter_singleton hmatch
  have hrs : r ∈ store := (List.mem_filter.mp (List.argmax_mem hsel)).1
  have hch := deleteById_changes_one hnd hrs
  refine ⟨?_, ?_, ?_⟩
  · rw [otpConsume_of_select hsel]
    dsimp only
    rw [hch, httl]
    have hgt : r.createdAt + (ttl + 1) * 1000 - r.createdAt > ttl * 1000 := by
      linarith
    simp [classify, hpos, hgt]
  · rw [otpConsume_of_select hsel]
    dsimp only
    rw [hch, httl]
    have hle : ¬(r.createdAt + (ttl - 1) * 1000 - r.createdAt > ttl * 1000) := by
      linarith
    simp [classify, hpos, hle]
  · intro envTtl₀ ttlArg₀ store₀ cid₀ hash₀ nowMs hnp
    cases hsel₀ : selectNewest store₀ cid₀ hash₀ with
    | none => simp [otpConsume, hsel₀]
    | some row =>
        rw [otpConsume_of_select hsel₀]
        dsimp only
        split
        · simp
        · cases he : effectiveTtl envTtl₀ ttlArg₀ with
          | none => simp [classify]
          | some t =>
              have ht := hnp t he
              simp [classify, not_lt.mpr ht]

theorem expiry_classification_witness :
    (otpConsume none [⟨1, "c", "h", 1000⟩] "c" "h" (1000 + (30 + 1) * 1000)
      (some 30)).1 = .expired ∧
    (otpConsume none [⟨1, "c", "h", 1000⟩] "c" "h" (1000 + (30 - 1) * 1000)
      (some 30)).1 = .ok ∧
    (otpConsume none [⟨1, "c", "h", 1000⟩] "c" "h" 999999999 none).1 ≠ .expired := by
  have h := @expiry_classification none (some 30) [⟨1, "c", "h", 1000⟩] "c" "h"
    ⟨1, "c", "h", 1000⟩ 30 (by decide) (by decide) rfl (by decide)
  refine ⟨h.1, h.2.1, ?_⟩
  exact h.2.2 none none [⟨1, "c", "h", 1000⟩] "c" "h" 999999999
    (fun t ht => by simp [effectiveTtl] at ht)

/-- C9: in the embedded adapter's TTL resolution, a finite `OTP_EXPIRY`
environment value takes precedence over the `ttlSeconds` argument: the
resolved TTL is the environment value whatever the argument is, the
argument is used only when the environment value is absent/non-numeric, and
the whole consume operation is invariant under changing the `ttlSeconds`
argument while `OTP_EXPIRY` is finite. -/
theorem env_ttl_precedence (e : Int) :
    (∀ a : Option Int, effectiveTtl (some e) a = some e) ∧
    (∀ a : Option Int, effectiveTtl none a = a) ∧
    (∀ (store : OtpStore) (cid hash : String) (nowMs : Int) (a a' : Option Int),
      otpConsume (some e) store cid hash nowMs a =
        otpConsume (some e) store cid hash nowMs a') := by
  refine ⟨fun _ => rfl, fun _ => rfl, ?_⟩
  intro store cid hash nowMs a a'
  cases hsel : selectNewest store cid hash with
  | none => simp [otpConsume, hsel]
  | some row =>
      rw [otpConsume_of_select hsel, otpConsume_of_select hsel]
      rfl

/-- C5: in production mode (`NODE_ENV=production`) with no pepper
(`OTP_PEPPER` unset or empty) and no insecure-override flag
(`ONEHITTER_ALLOW_INSECURE_HASH` not `'true'`), `computeOtpHash` raises the
configuration error at call time, and therefore the adapter's `otpCreate`
and `otpValidateWithStatus` raise the same error for every table, record
and clock — returning no new table at all, so no record is inserted or
deleted. -/
theorem production_requires_pepper {env : HashEnv}
    (hprod : env.nodeEnv = some "production")
    (hnp : env.otpPepper.getD "" = "")
    (hai : env.allowInsecureHash ≠ some "true") :
    (∀ (contact otp : String) (salt : Option String),
      computeOtpHash env contact otp salt = .error securityRequirementMsg) ∧
    (∀ (store : OtpStore) (nextId : Nat) (otp : OtpDoc) (nowMs : Int),
      otpCreate env store nextId otp nowMs = .error securityRequirementMsg) ∧
    (∀ (envTtl : Option Int) (store : OtpStore) (otp : OtpDoc) (nowMs : Int)
        (ttlSeconds : Option Int),
      otpValidateWithStatus env envTtl store otp nowMs ttlSeconds
        = .error securityRequirementMsg) := by
  have hflag : (env.allowInsecureHash == some "true") = false :=
    beq_eq_false_iff_ne.mpr hai
  have hmain : ∀ (contact otp : String) (salt : Option String),
      computeOtpHash env contact otp salt = .error securityRequirementMsg := by
    intro c o s
    simp [computeOtpHash, hprod, hnp, hflag]
  refine ⟨hmain, ?_, ?_⟩
  · intro store nextId otp nowMs
    simp [otpCreate, hmain]
  · intro envTtl store otp nowMs ttlSeconds
    simp [otpValidateWithStatus, hmain]

theorem production_requires_pepper_witness :
    computeOtpHash ⟨some "production", none, none⟩ "a@b.com" "654321" none
      = .error securityRequirementMsg ∧
    otpCreate ⟨some "production", none, none⟩ [] 1 ⟨"a@b.com", "654321", none⟩ 0
      = .error securityRequirementMsg ∧
    otpValidateWithStatus ⟨some "production", none, none⟩ none []
        ⟨"a@b.com", "654321", none⟩ 0 none
      = .error securityRequirementMsg := by
  have h := @production_requires_pepper ⟨some "production", none, none⟩
    rfl rfl (by decide)
  exact ⟨h.1 "a@b.com" "654321" none,
    h.2.1 [] 1 ⟨"a@b.com", "654321", none⟩ 0,
    h.2.2 none [] ⟨"a@b.com", "654321", none⟩ 0 none⟩

theorem getD_mem_of_default_mem {l : List Char} {d : Char} (hd : d ∈ l)
    (k : Nat) : l.getD k d ∈ l := by
  by_cases h : k < l.length
  · rw [List.getD_eq_getElem l d h]
    exact List.getElem_mem h
  · rw [List.getD_eq_default l d (le_of_not_lt h)]
    exact hd

theorem make_length (cfg : GenConfig) (rand : Nat → Nat) :
    (make cfg rand).length =
      (min (match cfg.otpLength with
            | some n => if 0 < n then n else (6 : Int)
            | none => 6) 64).toNat := by
  cases h : cfg.otpLength <;>
    simp [make, otpGeneratorGenerate, String.length, h]

/-- C6: `make()` returns a string whose length is the configured
`OTP_LENGTH` when that is a positive finite number of at most 64; a
non-finite or non-positive `OTP_LENGTH` falls back to length 6; an
`OTP_LENGTH` above 64 is capped at 64; and when all four character-class
flags are false, every character of the generated string is a digit (the
character set is never empty). -/
theorem make_length_and_charset (cfg : GenConfig) (rand : Nat → Nat) :
    (∀ n : Int, cfg.otpLength = some n → 0 < n → n ≤ 64 →
      ((make cfg rand).length : Int) = n) ∧
    (∀ n : Int, cfg.otpLength = some n → n ≤ 0 → (make cfg rand).length = 6) ∧
    (cfg.otpLength = none → (make cfg rand).length = 6) ∧
    (∀ n : Int, cfg.otpLength = some n → 64 < n → (make cfg rand).length = 64) ∧
    (cfg.upper = false → cfg.lower = false → cfg.digits = false →
      cfg.special = false →
      ∀ c ∈ (make cfg rand).toList, c ∈ digitChars) := by
  refine ⟨?_, ?_, ?_, ?_, ?_⟩
  · intro n hn hpos hle
    rw [make_length, hn]
    simp only [if_pos hpos]
    omega
  · intro n hn hnp
    rw [make_length, hn]
    have : ¬(0 < n) := not_lt.mpr hnp
    simp only [if_neg this]
    rfl
  · intro hn
    rw [make_length, hn]
    rfl
  · intro n hn hgt
    rw [make_length, hn]
    simp only [if_pos (by omega : (0 : Int) < n)]
    omega
  · intro hu hl hd hs c hc
    have hmem : c ∈ (List.range (make cfg rand).length).map
        (fun i => digitChars.getD (rand i % digitChars.length) '0') := by
      have : (make cfg rand).toList
          = (List.range (min (match cfg.otpLength with
              | some n => if 0 < n then n else (6 : Int)
              | none => 6) 64).toNat).map
            (fun i => digitChars.getD (rand i % digitChars.length) '0') := by
        cases h : cfg.otpLength <;>
          simp [make, otpGeneratorGenerate, hu, hl, hd, hs, charset, h]
      rw [this] at hc
      rw [make_length]
      exact hc
    obtain ⟨i, _, hci⟩ := List.mem_map.mp hmem
    rw [← hci]
    exact getD_mem_of_default_mem (by decide) _

theorem make_length_and_charset_witness :
    ((make ⟨some 10, true, false, true, false⟩ (fun i => i)).length : Int) = 10 ∧
    (make ⟨some (-3), false, true, false, false⟩ (fun i => i)).length = 6 ∧
    (make ⟨none, false, false, true, false⟩ (fun i => i)).length = 6 ∧
    (make ⟨some 100, false, false, false, false⟩ (fun i => i)).length = 64 ∧
    ('3' : Char) ∈ digitChars := by
  refine ⟨?_, ?_, ?_, ?_, ?_⟩
  · exact (make_length_and_charset ⟨some 10, true, false, true, false⟩
      (fun i => i)).1 10 rfl (by decide) (by decide)
  · exact (make_length_and_charset ⟨some (-3), false, true, false, false⟩
      (fun i => i)).2.1 (-3) rfl (by decide)
  · exact (make_length_and_charset ⟨none, false, false, true, false⟩
      (fun i => i)).2.2.1 rfl
  · exact (make_length_and_charset ⟨some 100, false, false, false, false⟩
      (fun i => i)).2.2.2.1 100 rfl (by decide)
  · exact (make_length_and_charset ⟨some 100, false, false, false, false⟩
      (fun _ => 3)).2.2.2.2 rfl rfl rfl rfl '3' (by decide)

/-- C7: for every engine `validateStatus` call — over any limiter state
type, any limiter hooks and any storage adapter — if `beforeValidate`
denies the contact, the result is `blocked` with the store untouched, and
it does not depend on the adapter or on the `onSuccess`/`onFailure` hooks
(they are not invoked); if `beforeValidate` allows, the adapter is applied
exactly once (the resulting store is that single application's store), the
limiter sees `onSuccess` exactly when the adapter's status is `ok` and
`onFailure` otherwise, and the adapter's status is returned verbatim —
in particular no adapter status is ever mapped to `blocked`. -/
theorem engine_validate_gating {σ : Type}
    (bv : σ → String → Bool × σ) (os onf : σ → String → σ)
    (adapter : OtpStore → ValidateStatus × OtpStore)
    (contact : String) (ls : σ) (store : OtpStore) :
    ((bv ls contact).1 = false →
      ∀ (adapter' : OtpStore → ValidateStatus × OtpStore)
        (os' onf' : σ → String → σ),
        engineValidateStatus ⟨bv, os', onf'⟩ adapter' contact ls store
          = (.blocked, (bv ls contact).2, store)) ∧
    ((bv ls contact).1 = true →
      engineValidateStatus ⟨bv, os, onf⟩ adapter contact ls store
        = (.ofValidateStatus (adapter store).1,
           (if (adapter store).1 = .ok then os (bv ls contact).2 contact
            else onf (bv ls contact).2 contact),
           (adapter store).2)) ∧
    (∀ st : ValidateStatus, EngineStatus.ofValidateStatus st ≠ .blocked) := by
  refine ⟨?_, ?_, ?_⟩
  · intro hb adapter' os' onf'
    simp [engineValidateStatus, hb]
  · intro hb
    simp [engineValidateStatus, hb]
  · intro st
    cases st <;> simp [EngineStatus.ofValidateStatus]

theorem engine_validate_gating_witness :
    @engineValidateStatus Nat
        ⟨fun s _ => (false, s + 1), fun s _ => s + 10, fun s _ => s + 100⟩
        (fun st => (.ok, st)) "a@b.com" 0 [⟨1, "c", "h", 0⟩]
      = (.blocked, 1, [⟨1, "c", "h", 0⟩]) ∧
    @engineValidateStatus Nat
        ⟨fun s _ => (true, s + 1), fun s _ => s + 10, fun s _ => s + 100⟩
        (fun _ => (.ok, [])) "a@b.com" 0 [⟨1, "c", "h", 0⟩]
      = (.ok, 11, []) ∧
    EngineStatus.ofValidateStatus .not_found ≠ .blocked := by
  refine ⟨?_, ?_, ?_⟩
  · exact (engine_validate_gating (fun s _ => (false, s + 1))
      (fun s _ => s + 10) (fun s _ => s + 100) (fun st => (.ok, st))
      "a@b.com" 0 [⟨1, "c", "h", 0⟩]).1 rfl (fun st => (.ok, st))
      (fun s _ => s + 10) (fun s _ => s + 100)
  · exact (engine_validate_gating (fun s _ => (true, s + 1))
      (fun s _ => s + 10) (fun s _ => s + 100) (fun _ => (.ok, []))
      "a@b.com" 0 [⟨1, "c", "h", 0⟩]).2.1 rfl
  · exact (engine_validate_gating (fun s : Nat => fun _ : String => (true, s))
      (fun s _ => s) (fun s _ => s) (fun st => (.ok, st))
      "a@b.com" 0 []).2.2 .not_found

/-- C8: the embedded windowed rate limiter realizes, per contact, the
Open → Cooling → Open state machine, for any configuration with a positive
`max` and positive cooldown timestamps (`Date.now()` values are positive,
so `cooldownUntil = now + cooldownMs` is a truthy number):
`beforeValidate` prunes failures older than `windowMs`; while
`cooldownUntil` lies in the future it returns false; once the cooldown has
elapsed it clears the cooldown and the history and returns true; with no
cooldown set it returns whether the pruned failure count is below `max`;
`onFailure` prunes, appends `now`, and enters Cooling with
`cooldownUntil = now + cooldownMs` exactly when the resulting count
reaches `max`; `onSuccess` clears the contact's entire bucket. -/
theorem inmem_limiter_state_machine (cfg : LimiterConfig)
    (hmax : 0 < cfg.max) :
    (∀ (now : Int) (b : Bucket) (c : Int), b.cooldownUntil = some c → c ≠ 0 →
      now < c → beforeValidate cfg now b = (false, prune cfg now b)) ∧
    (∀ (now : Int) (b : Bucket) (c : Int), b.cooldownUntil = some c → c ≠ 0 →
      c ≤ now → beforeValidate cfg now b = (true, ⟨[], none⟩)) ∧
    (∀ (now : Int) (b : Bucket), b.cooldownUntil = none →
      beforeValidate cfg now b =
        (decide (((prune cfg now b).times.length : Int) < cfg.max),
         prune cfg now b)) ∧
    (∀ (now : Int) (b : Bucket),
      (((prune cfg now b).times.length + 1 : Int) < cfg.max →
        onFailure cfg now b = ⟨(prune cfg now b).times ++ [now], b.cooldownUntil⟩) ∧
      ((cfg.max : Int) ≤ ((prune cfg now b).times.length + 1 : Int) →
        onFailure cfg now b =
          ⟨(prune cfg now b).times ++ [now], some (now + cfg.cooldownMs)⟩)) ∧
    (∀ b : Bucket, onSuccess b = emptyBucket) ∧
    (∀ (now : Int) (b : Bucket),
      (prune cfg now b).times = b.times.filter (fun t => now - t ≤ cfg.windowMs)) := by
  have hcd : ∀ (now : Int) (b : Bucket),
      (prune cfg now b).cooldownUntil = b.cooldownUntil := fun _ _ => rfl
  refine ⟨?_, ?_, ?_, ?_, fun _ => rfl, fun _ _ => rfl⟩
  · intro now b c hc hc0 hlt
    simp only [beforeValidate]
    rw [hcd, hc]
    simp [jsTruthy, hc0, hlt]
  · intro now b c hc hc0 hle
    simp only [beforeValidate]
    rw [hcd, hc]
    simp [jsTruthy, hc0, not_lt.mpr hle, hmax]
  · intro now b hc
    simp only [beforeValidate]
    rw [hcd, hc]
    simp [jsTruthy]
  · intro now b
    constructor
    · intro hlt
      simp only [onFailure]
      have : ¬((((prune cfg now b).times ++ [now]).length : Int) ≥ cfg.max) := by
        simp only [List.length_append, List.length_singleton]
        push_cast
        omega
      rw [if_neg this, hcd]
    · intro hge
      simp only [onFailure]
      have : (((prune cfg now b).times ++ [now]).length : Int) ≥ cfg.max := by
        simp only [List.length_append, List.length_singleton]
        push_cast
        omega
      rw [if_pos this]

theorem inmem_limiter_state_machine_witness :
    beforeValidate ⟨300000, 2, 60000⟩ 100 ⟨[50], some 500⟩ = (false, ⟨[50], some 500⟩) ∧
    beforeValidate ⟨300000, 2, 60000⟩ 700 ⟨[50], some 500⟩ = (true, ⟨[], none⟩) ∧
    beforeValidate ⟨300000, 2, 60000⟩ 100 ⟨[50, 60], none⟩ = (false, ⟨[50, 60], none⟩) ∧
    onFailure ⟨300000, 2, 60000⟩ 100 ⟨[], none⟩ = ⟨[100], none⟩ ∧
    onFailure ⟨300000, 2, 60000⟩ 100 ⟨[50], none⟩ = ⟨[50, 100], some 60100⟩ ∧
    onSuccess ⟨[50, 60], some 500⟩ = emptyBucket := by
  have h := inmem_limiter_state_machine ⟨300000, 2, 60000⟩ (by decide)
  refine ⟨?_, ?_, ?_, ?_, ?_, h.2.2.2.2.1 ⟨[50, 60], some 500⟩⟩
  · exact (h.1 100 ⟨[50], some 500⟩ 500 rfl (by decide) (by decide)).trans (by decide)
  · exact h.2.1 700 ⟨[50], some 500⟩ 500 rfl (by decide) (by decide)
  · exact (h.2.2.1 100 ⟨[50, 60], none⟩ rfl).trans (by decide)
  · exact ((h.2.2.2.1 100 ⟨[], none⟩).1 (by decide)).trans (by decide)
  · exact ((h.2.2.2.1 100 ⟨[50], none⟩).2 (by decide)).trans (by decide)

/-- C10: the embedded limiter's constructor performs no validation — an
explicitly supplied `max` (including zero or a negative value) is used
verbatim, not replaced by the default 5 — and with `max ≤ 0`,
`beforeValidate` returns false for every contact bucket at every clock
reading: a fresh contact with no failure history, a contact inside a
cooldown, and a contact whose cooldown has just elapsed (history cleared)
are all denied, so such a limiter blocks all validation attempts
permanently. -/
theorem inmem_limiter_nonpositive_max_blocks_all :
    (∀ (wm cm : Option Int) (m : Int),
      (mkInMemoryRateLimiter (some ⟨wm, some m, cm⟩)).max = m) ∧
    (∀ cfg : LimiterConfig, cfg.max ≤ 0 →
      ∀ (now : Int) (b : Bucket), (beforeValidate cfg now b).1 = false) := by
  refine ⟨fun _ _ _ => rfl, ?_⟩
  intro cfg hmax now b
  unfold beforeValidate
  have hlen : ∀ l : List Int, ¬((l.length : Int) < cfg.max) := by
    intro l
    have : (0 : Int) ≤ (l.length : Int) := Int.ofNat_nonneg _
    omega
  dsimp only
  split
  · split
    · rfl
    · simpa using hmax
  · simp [hlen]

theorem inmem_limiter_nonpositive_max_blocks_all_witness :
    (mkInMemoryRateLimiter (some ⟨none, some 0, none⟩)).max = 0 ∧
    (beforeValidate ⟨300000, 0, 60000⟩ 100 ⟨[], none⟩).1 = false ∧
    (beforeValidate ⟨300000, 0, 60000⟩ 700 ⟨[], some 500⟩).1 = false := by
  refine ⟨inmem_limiter_nonpositive_max_blocks_all.1 none none 0, ?_, ?_⟩
  · exact inmem_limiter_nonpositive_max_blocks_all.2 ⟨300000, 0, 60000⟩
      (by decide) 100 ⟨[], none⟩
  · exact inmem_limiter_nonpositive_max_blocks_all.2 ⟨300000, 0, 60000⟩
      (by decide) 700 ⟨[], some 500⟩

end OneHitter
